import Mathlib

/-!
Verification of the vibe-i18n core against its specification.

The development shallowly embeds the two subsystems the claims concern:
the path-addressed locale store of `src/I18nHelper.js` (get/set/has/copy/
merge/batch over JSON-like documents) and the scanners of
`src/I18nHelper.js` / `src/check-missing-translations.js` (hardcoded-string
extraction, `$t()` key extraction, completeness statistics).

JSON documents are modelled by the inductive `JsonV`; JavaScript objects are
ordered association lists (JSON.parse yields objects without duplicate keys,
and all mutations below preserve that shape).  File I/O is modelled by a
`Store` carrying the parsed document per locale: `JSON.parse ∘ JSON.stringify`
is the identity on documents the tool itself writes (§6 of the spec demands
exactly this round-trip), so `saveLocale` followed by `loadLocale` is a map
update followed by a lookup.  The sources are ES modules, hence strict mode:
`'k' in primitive` and `primitive.k = v` raise `TypeError`; a raised exception
is modelled as `Except.error ()`.
-/

namespace VibeI18n

/-- A JSON value: the locale-document data model.  JSON numbers are modelled
as integers — every numeric leaf appearing in the claims is an integer, and
no claim computes with numeric leaves. -/
inductive JsonV where
  | null
  | bool (b : Bool)
  | num (n : Int)
  | str (s : String)
  | arr (elems : List JsonV)
  | obj (fields : List (String × JsonV))
deriving Repr, Inhabited

/-- JavaScript truthiness of a JSON value (the `!content` checks in the
source). -/
def jsTruthy : JsonV → Bool
  | .null => false
  | .bool b => b
  | .num n => decide (n ≠ 0)
  | .str s => decide (s ≠ "")
  | .arr _ => true
  | .obj _ => true

/-- `v === null` (the only JSON value that is JS `null`). -/
def isNullV : JsonV → Bool
  | .null => true
  | _ => false

/-- `v === ''`. -/
def isEmptyStrV : JsonV → Bool
  | .str s => decide (s = "")
  | _ => false

/-- Property lookup on a JS object (`obj[key]`; parsed objects have no
duplicate keys, so the first binding is the binding). -/
def objGet : List (String × JsonV) → String → Option JsonV
  | [], _ => none
  | (k, v) :: rest, key => if k = key then some v else objGet rest key

/-- Property assignment on a JS object (`obj[key] = v`): replaces the
existing binding in place, else appends (JS insertion order). -/
def objSet : List (String × JsonV) → String → JsonV → List (String × JsonV)
  | [], key, v => [(key, v)]
  | (k, w) :: rest, key, v =>
      if k = key then (k, v) :: rest else (k, w) :: objSet rest key v

/-- `key in arr` for a JS array: `key` is the canonical decimal form of an
index below the length.  (Non-index array properties such as `length` never
occur on JSON-parsed arrays reached through locale documents.) -/
def arrIdx? (key : String) (len : Nat) : Option Nat :=
  match key.toNat? with
  | some i => if toString i = key ∧ i < len then some i else none
  | none => none

/-- `path.split('.')`, segment accumulation: a `.` closes the current
segment.  Splitting never yields an empty list; adjacent dots yield empty
segments, exactly as in JS. -/
def splitDotsAux : List Char → List Char → List String
  | [], acc => [String.mk acc.reverse]
  | c :: cs, acc =>
      if c = '.' then String.mk acc.reverse :: splitDotsAux cs []
      else splitDotsAux cs (c :: acc)

/-- `path.split('.')` — never empty: splitting returns at least one segment. -/
def pathKeys (p : String) : List String := splitDotsAux p.toList []

/-- The read-only walk shared by `I18nHelper.get` (I18nHelper.js:138–144) and
the loop of `MissingTranslationChecker.hasTranslationKey`
(check-missing-translations.js:178–183): descend while
`current && typeof current === 'object' && key in current`, else fail.
`null` fails the truthiness test, primitives fail the `typeof` test; the two
loops spell the same condition positively and negatively. -/
def getPath : JsonV → List String → Option JsonV
  | v, [] => some v
  | .obj fields, k :: ks =>
      match objGet fields k with
      | some v => getPath v ks
      | none => none
  | .arr xs, k :: ks =>
      match arrIdx? k xs.length with
      | some i =>
          match xs.get? i with
          | some v => getPath v ks
          | none => none
      | none => none
  | _, _ :: _ => none

/-!  ## The locale store (`I18nHelper`)  -/

/-- The helper's state: the parsed document behind each locale file, and the
locale list scanned once by the constructor (`this.locales`).  A locale whose
file is absent or unparseable is simply absent from `docs` (`loadLocale`
returns `null` for both). -/
structure Store where
  docs : List (String × JsonV)
  locales : List String

/-- `I18nHelper.loadLocale`: read and parse the locale's file; `null` when
missing or malformed. -/
def loadLocale (s : Store) (locale : String) : Option JsonV :=
  objGet s.docs locale

/-- `I18nHelper.saveLocale`: serialize and overwrite the locale's file.  The
JSON round-trip is exact, so the store simply records the document. -/
def saveLocale (s : Store) (locale : String) (content : JsonV) : Store :=
  { s with docs := objSet s.docs locale content }

/-- `I18nHelper.get` (lines 131–147).  JS cannot distinguish "absent" from a
stored JSON `null` leaf — both surface as `null` — so the model returns
`JsonV.null` for both, exactly as observable. -/
def get (s : Store) (locale p : String) : JsonV :=
  match loadLocale s locale with
  | none => .null
  | some content =>
      if jsTruthy content then
        match getPath content (pathKeys p) with
        | some v => v
        | none => .null
      else .null

/-- `I18nHelper.has` (lines 227–229): `this.get(locale, path) !== null`. -/
def has (s : Store) (locale p : String) : Bool :=
  !(isNullV (get s locale p))

/-- The mutation walk of `I18nHelper.set` (lines 160–183), one pure pass.
Walking all but the last segment: a present key descends into its value —
whatever that value is — and a missing key gets a fresh `{}`.  If the value
descended into is not an object the next step throws in strict mode
(`'k' in primitive` / `primitive.k = v` raise `TypeError`): the source has
no scalar-to-container conversion.  The returned Bool is `true` when the
value was assigned, `false` when `skipIfExists` suppressed the write.
Arrays as mutation targets never occur in locale documents (the spec treats
arrays as leaves); walking into one is modelled as an error. -/
def setPath (skipIfExists : Bool) (value : JsonV) :
    List String → JsonV → Except Unit (JsonV × Bool)
  | [lastKey], .obj fields =>
      if skipIfExists && (objGet fields lastKey).isSome then
        .ok (.obj fields, false)
      else
        .ok (.obj (objSet fields lastKey value), true)
  | k :: k2 :: ks, .obj fields =>
      let child :=
        match objGet fields k with
        | some c => c
        | none => .obj []
      match setPath skipIfExists value (k2 :: ks) child with
      | .ok (child2, applied) => .ok (.obj (objSet fields k child2), applied)
      | .error e => .error e
  | _, _ => .error ()

/-- `I18nHelper.set` (lines 156–184): load, walk-and-assign, save.  Returns
the new store and the JS outcome: `.ok false` for an unloadable locale or a
`skipIfExists` skip (neither saves), `.ok true` after assignment and save,
`.error` when the walk throws (nothing was saved: `saveLocale` runs after the
walk completes). -/
def set (s : Store) (locale p : String) (value : JsonV) (skipIfExists : Bool) :
    Store × Except Unit Bool :=
  match loadLocale s locale with
  | none => (s, .ok false)
  | some content =>
      if jsTruthy content then
        match setPath skipIfExists value (pathKeys p) content with
        | .ok (content2, true) => (saveLocale s locale content2, .ok true)
        | .ok (_, false) => (s, .ok false)
        | .error e => (s, .error e)
      else (s, .ok false)

/-- `I18nHelper.setMultiple` (lines 192–203): one `set` per entry, unknown
locales (not in `this.locales`) skipped with a warning and marked `false`.
An exception from an individual `set` propagates out of the loop. -/
def setMultiple : Store → List (String × JsonV) → String → Bool →
    Store × Except Unit (List (String × Bool))
  | s, [], _, _ => (s, .ok [])
  | s, (locale, value) :: rest, p, skipIfExists =>
      if s.locales.contains locale then
        match set s locale p value skipIfExists with
        | (s2, .ok b) =>
            match setMultiple s2 rest p skipIfExists with
            | (s3, .ok results) => (s3, .ok ((locale, b) :: results))
            | (s3, .error e) => (s3, .error e)
        | (s2, .error e) => (s2, .error e)
      else
        match setMultiple s rest p skipIfExists with
        | (s3, .ok results) => (s3, .ok ((locale, false) :: results))
        | (s3, .error e) => (s3, .error e)

/-- `I18nHelper.getAll` (lines 210–219): per-locale `get`, omitting `null`s.
Read-only. -/
def getAll (s : Store) (p : String) : List (String × JsonV) :=
  s.locales.filterMap (fun locale =>
    let value := get s locale p
    if isNullV value then none else some (locale, value))

/-- `I18nHelper.getMissing` (lines 236–244): locales where `has` fails.
Read-only. -/
def getMissing (s : Store) (p : String) : List String :=
  s.locales.filter (fun locale => !(has s locale p))

/-- The loop of `I18nHelper.copy` (lines 262–264): `set` per target. -/
def setEach : Store → List String → String → JsonV →
    Store × Except Unit (List (String × Bool))
  | s, [], _, _ => (s, .ok [])
  | s, locale :: rest, p, value =>
      match set s locale p value false with
      | (s2, .ok b) =>
          match setEach s2 rest p value with
          | (s3, .ok results) => (s3, .ok ((locale, b) :: results))
          | (s3, .error e) => (s3, .error e)
      | (s2, .error e) => (s2, .error e)

/-- `I18nHelper.copy` (lines 252–267): read the source value; `false`
(modelled `none`) without side effects when it is null; else `set` it on each
target, defaulting to every known locale but the source. -/
def copy (s : Store) (sourceLocale p : String) (targetLocales : Option (List String)) :
    Store × Except Unit (Option (List (String × Bool))) :=
  if isNullV (get s sourceLocale p) then (s, .ok none)
  else
    match setEach s
        (match targetLocales with
         | some ts => ts
         | none => s.locales.filter (fun l => l ≠ sourceLocale))
        p (get s sourceLocale p) with
    | (s2, .ok results) => (s2, .ok (some results))
    | (s2, .error e) => (s2, .error e)

/-- `I18nHelper.merge` (lines 275–279): sequential `set` per path entry. -/
def merge : Store → String → List (String × JsonV) → Bool → Store × Except Unit Unit
  | s, _, [], _ => (s, .ok ())
  | s, locale, (p, value) :: rest, skipIfExists =>
      match set s locale p value skipIfExists with
      | (s2, .ok _) => merge s2 locale rest skipIfExists
      | (s2, .error e) => (s2, .error e)

/-- `I18nHelper.batchUpdate` (lines 292–301): `merge` per known locale;
unknown locales are warned about and skipped. -/
def batchUpdate : Store → List (String × List (String × JsonV)) → Bool →
    Store × Except Unit Unit
  | s, [], _ => (s, .ok ())
  | s, (locale, translations) :: rest, skipIfExists =>
      if s.locales.contains locale then
        match merge s locale translations skipIfExists with
        | (s2, .ok _) => batchUpdate s2 rest skipIfExists
        | (s2, .error e) => (s2, .error e)
      else batchUpdate s rest skipIfExists

/-- `I18nHelper.getLocales` (lines 51–53): `[...this.locales]` — a fresh
array holding the same locale values (the spread copy is the identity on the
value it copies; aliasing is unobservable in the pure model). -/
def getLocales (s : Store) : List String := s.locales

/-!  ## Completeness statistics (`checkTranslations` / `getStats`)  -/

/-- `I18nHelper._getAllPaths` (lines 610–624): depth-first leaf enumeration
of an object's fields in iteration order.  A value recurses exactly when
`value && typeof value === 'object' && !Array.isArray(value)`: objects
(truthy even when empty) recurse; arrays, `null` and scalars are leaves. -/
def getAllPaths : List (String × JsonV) → String → List String
  | [], _ => []
  | (key, JsonV.obj fields) :: rest, pfx =>
      getAllPaths fields (if pfx = "" then key else pfx ++ "." ++ key) ++
        getAllPaths rest pfx
  | (key, _) :: rest, pfx =>
      (if pfx = "" then key else pfx ++ "." ++ key) :: getAllPaths rest pfx

/-- The per-locale record `checkTranslations` stores in `results.locales`
(I18nHelper.js:389–395), also the shape of `getStats` (lines 325–331). -/
structure LocaleStat where
  total : Nat
  complete : Nat
  missing : Nat
  percentage : String
  missingPaths : List String
deriving Repr, DecidableEq

/-- `((total - missing) / total * 100).toFixed(1) + '%'`, computed in tenths
of a percent by integer arithmetic.  For every ratio arising in the claims
the decimal expansion is exact in one decimal place, where the IEEE-double
computation of the source and this integer computation agree; `total = 0`
(JS `NaN`) does not arise. -/
def toFixed1Percent (complete total : Nat) : String :=
  let tenths := complete * 1000 / total
  toString (tenths / 10) ++ "." ++ toString (tenths % 10) ++ "%"

/-- The per-locale body of the `checkTranslations` loop
(I18nHelper.js:382–395): count the base paths `has` misses. -/
def localeStat (s : Store) (basePaths : List String) (locale : String) : LocaleStat :=
  let missing := basePaths.filter (fun p => !(has s locale p))
  { total := basePaths.length
    complete := basePaths.length - missing.length
    missing := missing.length
    percentage := toFixed1Percent (basePaths.length - missing.length) basePaths.length
    missingPaths := missing }

/-- `I18nHelper.checkTranslations` (lines 343–488), restricted to the
structured per-locale results (`results.locales`); the console report and the
summary/suggestion fields aggregate these same numbers.  The base locale is
hard-coded `'en-US'`; `null` when it cannot be loaded.  Every other known
locale with a loadable (truthy) document is checked against the base's leaf
paths; unreadable locales are skipped (`continue`).  Locale documents are
objects; `Object.entries` on a non-object root is not modelled. -/
def checkTranslations (s : Store) : Option (List (String × LocaleStat)) :=
  match loadLocale s "en-US" with
  | none => none
  | some baseContent =>
      if jsTruthy baseContent then
        let basePaths :=
          match baseContent with
          | .obj fields => getAllPaths fields ""
          | _ => []
        some ((s.locales.filter (fun l => l ≠ "en-US")).filterMap (fun locale =>
          match loadLocale s locale with
          | none => none
          | some content =>
              if jsTruthy content then some (locale, localeStat s basePaths locale)
              else none))
      else none

/-!  ## The usage cross-check (`check-missing-translations.js`)  -/

/-- `MissingTranslationChecker.hasTranslationKey` (lines 174–186): walk the
segments (the same walk as `get`, see `getPath`), then demand the leaf be
neither `undefined` nor `null` nor `''`.  (`undefined` cannot be produced by
`k in current` on JSON-parsed data.) -/
def hasTranslationKey (translations : JsonV) (key : String) : Bool :=
  match getPath translations (pathKeys key) with
  | none => false
  | some v => !(isNullV v) && !(isEmptyStrV v)

/-- JS `\s` (whitespace class) for the characters arising here. -/
def isWs (c : Char) : Bool :=
  c = ' ' || c = '\t' || c = '\n' || c = '\r' ||
    c = Char.ofNat 11 || c = Char.ofNat 12

/-- Drop a (possibly empty) run of whitespace: one `\s*` step. -/
def dropWs : List Char → List Char
  | [] => []
  | c :: cs => if isWs c then dropWs cs else c :: cs

/-- The single-quote character, `'`. -/
def sqChar : Char := Char.ofNat 39

/-- The double-quote character, `"`. -/
def dqChar : Char := Char.ofNat 34

/-- The `['"]` character class of the extraction patterns. -/
def isQuote (c : Char) : Bool := c = sqChar || c = dqChar

/-- Left brace. -/
def lbrace : Char := Char.ofNat 123

/-- Right brace. -/
def rbrace : Char := Char.ofNat 125

/-- Attempt to close `['"]\s*\)` at the current position; on success, the
rest after `)`. -/
def closeQuote : List Char → Option (List Char)
  | c :: cs =>
      if isQuote c then
        match dropWs cs with
        | c2 :: cs2 => if c2 = '(' then none else if c2 = ')' then some cs2 else none
        | [] => none
      else none
  | [] => none

/-- The lazy capture `(.*?)['"]\s*\)`: at each position first try to close
(shortest match wins), else consume one non-newline character (`.` matches
neither `\n` nor `\r`). -/
def lazyBody : List Char → List Char → Option (String × List Char)
  | [], _ => none
  | c :: cs, acc =>
      match closeQuote (c :: cs) with
      | some rest => some (String.mk acc.reverse, rest)
      | none =>
          if c = '\n' || c = '\r' then none
          else lazyBody cs (c :: acc)

/-- Match `t\s*\(\s*['"](.*?)['"]\s*\)` — pattern 1 of `extractTKeys`
(check-missing-translations.js:64) after its leading `\$` — returning the
captured key and the rest after the match. -/
def matchTCall : List Char → Option (String × List Char)
  | 't' :: cs =>
      match dropWs cs with
      | '(' :: cs2 =>
          match dropWs cs2 with
          | q :: cs3 => if isQuote q then lazyBody cs3 [] else none
          | [] => none
      | _ => none
  | _ => none

/-- Pattern 1, `/\$t\s*\(\s*['"](.*?)['"]\s*\)/`, anchored at the current
position. -/
def matchP1 : List Char → Option (String × List Char)
  | c :: cs => if c = '$' then matchTCall cs else none
  | [] => none

/-- Pattern 2, `/\{\{\s*\$t\s*\(\s*['"](.*?)['"]\s*\)\s*\}\}/`, anchored at
the current position. -/
def matchP2 : List Char → Option (String × List Char)
  | a :: b :: cs =>
      if a = lbrace && b = lbrace then
        match dropWs cs with
        | d :: cs2 =>
            if d = '$' then
              match matchTCall cs2 with
              | some (key, rest) =>
                  match dropWs rest with
                  | x :: y :: rest2 =>
                      if x = rbrace && y = rbrace then some (key, rest2) else none
                  | _ => none
              | none => none
            else none
        | [] => none
      else none
  | _ => none

/-- One global-regex pass (`while (pattern.exec(content))`): try the pattern
at each position left to right; a match emits its capture and resumes after
the matched text.  The fuel is the remaining length (each step consumes at
least one character, so it never runs out). -/
def scanPattern (try1 : List Char → Option (String × List Char)) :
    Nat → List Char → List String
  | 0, _ => []
  | _, [] => []
  | fuel + 1, c :: cs =>
      match try1 (c :: cs) with
      | some (key, rest) => key :: scanPattern try1 fuel rest
      | none => scanPattern try1 fuel cs

/-- Set-insertion-order deduplication (`new Set()` + `Array.from`). -/
def dedupKeys : List String → List String → List String
  | [], _ => []
  | k :: ks, seen =>
      if seen.contains k then dedupKeys ks seen else k :: dedupKeys ks (k :: seen)

/-- `MissingTranslationChecker.extractTKeys` (lines 59–76): run the two
patterns over the content, collecting captures into a `Set` (insertion
order). -/
def extractTKeys (content : String) : List String :=
  let cs := content.toList
  dedupKeys (scanPattern matchP1 cs.length cs ++ scanPattern matchP2 cs.length cs) []

/-- The structured result of `checkMissingTranslations`
(check-missing-translations.js:223–228). -/
structure CheckResult where
  missingKeys : List String
  foundKeys : List String
  allKeys : List String
  fileKeyMap : List (String × List String)
deriving Repr, DecidableEq

/-- `MissingTranslationChecker.scanProjectForTKeys` (lines 105–130) given the
project's `.vue` files as (path, content) pairs: per-file key extraction
(files with no keys omitted from the map), all keys deduplicated and sorted.
Returns (allKeys, fileKeyMap). -/
def scanProjectForTKeys (files : List (String × String)) :
    List String × List (String × List String) :=
  let fileKeyMap := files.filterMap (fun fc =>
    let keys := extractTKeys fc.2
    if keys.length > 0 then some (fc.1, keys) else none)
  let allKeys := dedupKeys (fileKeyMap.flatMap (fun fk => fk.2)) []
  (allKeys.mergeSort (fun a b => decide (a ≤ b)), fileKeyMap)

/-- `MissingTranslationChecker.reportResults` (lines 234–300).  Its first
statement already interpolates the bare identifier `baseLocale`
(line 239: `` `\n✅ Keys found in ${baseLocale}.json: ...` ``), which is not
declared in the method, the class, or the module — the sibling methods obtain
it via `this.detectBaseLocale()`.  In an ES module (strict mode) evaluating
it raises `ReferenceError: baseLocale is not defined`, so every call throws
before reaching the report body; the throw is modelled as `Except.error ()`. -/
def reportResults (missingKeys foundKeys : List String)
    (fileKeyMap : List (String × List String)) (allKeys : List String) :
    Except Unit Unit :=
  .error ()

/-- `MissingTranslationChecker.checkMissingTranslations` (lines 191–229)
given the scanned files and the loaded base-locale document: scan for keys,
return `undefined` (modelled `none`) when the base document is unreadable,
else partition the used keys by `hasTranslationKey`, report, and return the
structured result.  The call to `reportResults` (line 221) precedes the
`return`. -/
def checkMissingTranslations (files : List (String × String))
    (defaultTranslations : Option JsonV) : Except Unit (Option CheckResult) :=
  let scanned := scanProjectForTKeys files
  match defaultTranslations with
  | none => .ok none
  | some translations =>
      let missingKeys := scanned.1.filter (fun k => !(hasTranslationKey translations k))
      let foundKeys := scanned.1.filter (fun k => hasTranslationKey translations k)
      match reportResults missingKeys foundKeys scanned.2 scanned.1 with
      | .error e => .error e
      | .ok _ => .ok (some ⟨missingKeys, foundKeys, scanned.1, scanned.2⟩)

/-!  ## The hardcoded-string scanner (markup path)  -/

/-- Substring test (`hay.includes(need)`). -/
def containsSub (need : List Char) : List Char → Bool
  | [] => need.isPrefixOf []
  | c :: cs => need.isPrefixOf (c :: cs) || containsSub need cs

/-- `hay.indexOf(need)` as JS returns it: the first match index, `-1` when
absent. -/
def idxSub (need : List Char) : List Char → Int
  | [] => if need.isPrefixOf ([] : List Char) then 0 else -1
  | c :: cs =>
      if need.isPrefixOf (c :: cs) then 0
      else
        let r := idxSub need cs
        if r = -1 then -1 else r + 1

/-- `hay.lastIndexOf(need)`: the last match index, `-1` when absent. -/
def lastIdxSub (need : List Char) : List Char → Int
  | [] => if need.isPrefixOf ([] : List Char) then 0 else -1
  | c :: cs =>
      let r := lastIdxSub need cs
      if r ≠ -1 then r + 1
      else if need.isPrefixOf (c :: cs) then 0
      else -1

/-- `str.trim()`: strip whitespace at both ends. -/
def trimStr (s : String) : String :=
  String.mk ((dropWs ((dropWs s.toList).reverse)).reverse)

/-- `I18nHelper._isInsideCodeOrPreTag` (lines 841–880): compare, on the same
line, the nearest `<code>`/`<code ␣`/`<pre>`/`<pre ␣` opener before the
position against the nearest closer before it, and look for a closer ahead. -/
def isInsideCodeOrPreTag (line : String) (position : Nat) : Bool :=
  let beforeText := line.toList.take position
  let afterText := line.toList.drop position
  let lastCodeOpen :=
    max (lastIdxSub "<code>".toList beforeText) (lastIdxSub "<code ".toList beforeText)
  let lastCodeClose := lastIdxSub "</code>".toList beforeText
  let nextCodeClose := idxSub "</code>".toList afterText
  let lastPreOpen :=
    max (lastIdxSub "<pre>".toList beforeText) (lastIdxSub "<pre ".toList beforeText)
  let lastPreClose := lastIdxSub "</pre>".toList beforeText
  let nextPreClose := idxSub "</pre>".toList afterText
  (if lastCodeOpen ≠ -1 ∧ lastCodeOpen > lastCodeClose then
    (nextCodeClose ≠ -1 ∨ lastCodeClose = -1 : Bool)
  else false) ||
  (if lastPreOpen ≠ -1 ∧ lastPreOpen > lastPreClose then
    (nextPreClose ≠ -1 ∨ lastPreClose = -1 : Bool)
  else false)

/-- `/t\s*\(/` tested anywhere in the line. -/
def testTParen : List Char → Bool
  | [] => false
  | 't' :: cs =>
      (match dropWs cs with
       | '(' :: _ => true
       | _ => false) || testTParen cs
  | _ :: cs => testTParen cs

/-- `/\$t\s*\(/` tested anywhere in the line. -/
def testDollarT : List Char → Bool
  | [] => false
  | '$' :: cs =>
      (match cs with
       | 't' :: cs2 =>
           (match dropWs cs2 with
            | '(' :: _ => true
            | _ => false)
       | _ => false) || testDollarT cs
  | _ :: cs => testDollarT cs

/-- `/\{\{\s*\$t\s*\(/` tested anywhere in the line. -/
def testBraceDollarT : List Char → Bool
  | [] => false
  | a :: cs =>
      (if a = lbrace then
        match cs with
        | b :: cs2 =>
            if b = lbrace then
              match dropWs cs2 with
              | '$' :: 't' :: cs3 =>
                  (match dropWs cs3 with
                   | '(' :: _ => true
                   | _ => false)
              | _ => false
            else false
        | [] => false
      else false) || testBraceDollarT cs

/-- `/useI18n\s*\(/` tested anywhere in the line. -/
def testUseI18n : List Char → Bool
  | [] => false
  | c :: cs =>
      ("useI18n".toList.isPrefixOf (c :: cs) &&
        (match dropWs ((c :: cs).drop 7) with
         | '(' :: _ => true
         | _ => false)) || testUseI18n cs

/-- `/\.t\s*\(/` tested anywhere in the line. -/
def testDotT : List Char → Bool
  | [] => false
  | '.' :: 't' :: cs =>
      (match dropWs cs with
       | '(' :: _ => true
       | _ => false) || testDotT ('t' :: cs)
  | _ :: cs => testDotT cs

/-- `I18nHelper._isI18nLine` (lines 811–823): the seven i18n-usage patterns. -/
def isI18nLine (line : String) : Bool :=
  let cs := line.toList
  testDollarT cs || testBraceDollarT cs || testUseI18n cs || testDotT cs ||
    containsSub "i18n.".toList cs || containsSub "$i18n.".toList cs || testTParen cs

/-- `I18nHelper._isCommentLine` (lines 829–835). -/
def isCommentLine (line : String) : Bool :=
  let t := (trimStr line).toList
  ['/', '/'].isPrefixOf t || ['/', '*'].isPrefixOf t || ['*'].isPrefixOf t ||
    ['<', '!', '-', '-'].isPrefixOf t

/-- The CJK ranges of `_isUserFacingText` / `_getSeverity`:
`一-鿿぀-ゟ゠-ヿ가-힯`. -/
def isCJK (c : Char) : Bool :=
  (0x4e00 ≤ c.toNat && c.toNat ≤ 0x9fff) || (0x3040 ≤ c.toNat && c.toNat ≤ 0x309f) ||
    (0x30a0 ≤ c.toNat && c.toNat ≤ 0x30ff) || (0xac00 ≤ c.toNat && c.toNat ≤ 0xd7af)

/-- `[a-zA-Z]`. -/
def isAsciiLetter (c : Char) : Bool :=
  ('a' ≤ c && c ≤ 'z') || ('A' ≤ c && c ≤ 'Z')

/-- The UI-vocabulary list of `_isUserFacingText` (lines 969–976). -/
def uiWords : List String :=
  ["upload", "download", "submit", "cancel", "save", "delete", "edit", "create",
   "login", "logout", "register", "search", "filter", "sort", "refresh",
   "next", "previous", "back", "forward", "home", "settings", "profile",
   "help", "about", "contact", "privacy", "terms", "faq",
   "loading", "success", "failed", "complete", "processing",
   "welcome", "hello", "goodbye", "thanks", "please", "sorry"]

/-- ASCII lowering (`str.toLowerCase()`; the CJK text here is unaffected). -/
def toLowerStr (s : String) : String :=
  String.mk (s.toList.map Char.toLower)

/-- The number of maximal whitespace runs; `str.split(/\s+/).length` is one
more than this (a leading or trailing separator contributes an empty
segment, exactly as in JS). -/
def wsRuns (inRun : Bool) : List Char → Nat
  | [] => 0
  | c :: cs =>
      if isWs c then
        if inRun then wsRuns true cs else 1 + wsRuns true cs
      else wsRuns false cs

/-- `I18nHelper._isUserFacingText` (lines 957–994). -/
def isUserFacingText (s : String) : Bool :=
  let cs := s.toList
  if !(cs.any (fun c => isAsciiLetter c || isCJK c)) then false
  else if cs.any isWs && decide (1 + wsRuns false cs > 1) then true
  else if uiWords.any (fun w => containsSub w.toList (toLowerStr s).toList) then true
  else if cs.any isCJK then true
  else if decide (s.length > 6) && cs.any (fun c => 'a' ≤ c && c ≤ 'z') &&
      cs.any (fun c => 'A' ≤ c && c ≤ 'Z') then true
  else false

/-- A hardcoded-string finding (file, full match and surrounding context are
presentational and carried by the text and column here). -/
structure Finding where
  line : Nat
  column : Nat
  text : String
  category : String
  severity : String
deriving Repr, DecidableEq

/-- Split off the maximal run of non-`<` characters. -/
def splitNonLt : List Char → List Char × List Char
  | [] => ([], [])
  | c :: cs =>
      if c = '<' then ([], c :: cs)
      else
        let r := splitNonLt cs
        (c :: r.1, r.2)

/-- One global pass of `/>([^<]+)</g` over the line: each match records the
index of its `>` and the captured run; the scan resumes after the consumed
closing `<`.  Fuel is the remaining length (every step consumes at least one
character). -/
def scanTagContent : Nat → Nat → List Char → List (Nat × String)
  | 0, _, _ => []
  | _, _, [] => []
  | fuel + 1, i, c :: cs =>
      if c = '>' then
        let r := splitNonLt cs
        match r.2 with
        | _ :: rest2 =>
            if r.1 = [] then scanTagContent fuel (i + 1) cs
            else (i, String.mk r.1) :: scanTagContent fuel (i + 1 + r.1.length + 1) rest2
        | [] => scanTagContent fuel (i + 1) cs
      else scanTagContent fuel (i + 1) cs

/-- `I18nHelper._extractVueTemplateContent` (lines 691–742): tag-content
candidates from `/>([^<]+)</g`, trimmed, filtered by length bounds, template
interpolation (`{{`/`}}`), the `v-` directive marker, the same-line
code/pre exclusion, and the user-facing test; survivors become
`template-content`/`high` findings at `match.index + 1`. -/
def extractVueTemplateContent (line : String) (lineNumber : Nat)
    (minLength maxLength : Nat) : List Finding :=
  (scanTagContent line.toList.length 0 line.toList).filterMap (fun m =>
    let textContent := trimStr m.2
    let startCol := m.1 + 1
    if textContent = "" ∨ textContent.length < minLength ∨ textContent.length > maxLength then
      none
    else if containsSub [lbrace, lbrace] textContent.toList ∨
        containsSub [rbrace, rbrace] textContent.toList ∨
        ['v', '-'].isPrefixOf textContent.toList then
      none
    else if isInsideCodeOrPreTag line startCol then none
    else if isUserFacingText textContent then
      some { line := lineNumber, column := startCol, text := textContent,
             category := "template-content", severity := "high" }
    else none)

/-- `I18nHelper._extractStringsFromLine` (lines 664–685) for a markup file
(`.vue`/`.jsx`/`.tsx`): skip i18n-delegating lines, skip comments unless
included, then the Vue template-content path. -/
def extractStringsFromLineVue (line : String) (lineNumber : Nat)
    (minLength maxLength : Nat) (includeComments : Bool) : List Finding :=
  if isI18nLine line then []
  else if !includeComments && isCommentLine line then []
  else extractVueTemplateContent line lineNumber minLength maxLength

/-!  ## Lemmas about object mutation and the set walk  -/

theorem objGet_objSet_self (fields : List (String × JsonV)) (key : String) (v : JsonV) :
    objGet (objSet fields key v) key = some v := by
  induction fields with
  | nil => simp [objSet, objGet]
  | cons hd tl ih =>
      obtain ⟨k, w⟩ := hd
      by_cases h : k = key
      · subst h; simp [objSet, objGet]
      · simp [objSet, objGet, h, ih]

theorem objSet_eq_of_objGet (fields : List (String × JsonV)) (key : String) (v : JsonV)
    (h : objGet fields key = some v) : objSet fields key v = fields := by
  induction fields with
  | nil => simp [objGet] at h
  | cons hd tl ih =>
      obtain ⟨k, w⟩ := hd
      by_cases hk : k = key
      · subst hk
        simp [objGet] at h
        simp [objSet, h]
      · simp [objGet, hk] at h
        simp [objSet, hk, ih h]

/-- A successful `setPath` walk always ends in an object document. -/
theorem setPath_ok_obj (skip : Bool) (v : JsonV) (ks : List String) (d d2 : JsonV)
    (b : Bool) (h : setPath skip v ks d = .ok (d2, b)) : ∃ fs, d2 = .obj fs := by
  cases ks with
  | nil => cases d <;> simp [setPath] at h
  | cons k ks =>
      cases ks with
      | nil =>
          cases d <;> simp [setPath] at h
          rename_i fields
          split at h
          · exact ⟨fields, by simp at h; exact h.1.symm⟩
          · exact ⟨objSet fields k v, by simp at h; exact h.1.symm⟩
      | cons k2 ks =>
          cases d <;> simp [setPath] at h
          rename_i fields
          cases hrec : setPath skip v (k2 :: ks) (match objGet fields k with
              | some c => c
              | none => .obj []) with
          | ok pr =>
              rw [hrec] at h
              simp at h
              exact ⟨objSet fields k pr.1, h.1.symm⟩
          | error e => rw [hrec] at h; simp at h

/-- After an applied (`true`) `setPath`, reading the same path yields the
written value. -/
theorem setPath_getPath (skip : Bool) (v : JsonV) :
    ∀ (ks : List String) (d d2 : JsonV),
      setPath skip v ks d = .ok (d2, true) → getPath d2 ks = some v := by
  intro ks
  induction ks with
  | nil => intro d d2 h; cases d <;> simp [setPath] at h
  | cons k ks ih =>
      intro d d2 h
      cases ks with
      | nil =>
          cases d <;> simp [setPath] at h
          rename_i fields
          split at h
          · simp at h
          · simp at h
            rw [← h]
            simp [getPath, objGet_objSet_self]
      | cons k2 ks =>
          cases d <;> simp [setPath] at h
          rename_i fields
          cases hrec : setPath skip v (k2 :: ks) (match objGet fields k with
              | some c => c
              | none => .obj []) with
          | ok pr =>
              obtain ⟨c2, b⟩ := pr
              rw [hrec] at h
              simp at h
              obtain ⟨h1, h2⟩ := h
              subst h2
              rw [← h1]
              have := ih _ _ hrec
              simp [getPath, objGet_objSet_self]
              exact this
          | error e => rw [hrec] at h; simp at h

/-- After an applied `setPath`, re-walking the same path with
`skipIfExists = true` reports a skip and rebuilds the identical document. -/
theorem setPath_skip_after (v1 v2 : JsonV) :
    ∀ (ks : List String) (d d2 : JsonV),
      setPath false v1 ks d = .ok (d2, true) →
      setPath true v2 ks d2 = .ok (d2, false) := by
  intro ks
  induction ks with
  | nil => intro d d2 h; cases d <;> simp [setPath] at h
  | cons k ks ih =>
      intro d d2 h
      cases ks with
      | nil =>
          cases d <;> simp [setPath] at h
          rename_i fields
          rw [← h]
          simp [setPath, objGet_objSet_self]
      | cons k2 ks =>
          cases d <;> simp [setPath] at h
          rename_i fields
          cases hrec : setPath false v1 (k2 :: ks) (match objGet fields k with
              | some c => c
              | none => .obj []) with
          | ok pr =>
              obtain ⟨c2, b⟩ := pr
              rw [hrec] at h
              simp at h
              obtain ⟨h1, h2⟩ := h
              subst h2
              have hskip := ih _ _ hrec
              rw [← h1]
              simp [setPath, objGet_objSet_self, hskip,
                objSet_eq_of_objGet _ _ _ (objGet_objSet_self fields k c2)]
          | error e => rw [hrec] at h; simp at h

/-- What a store-level `set` returning `true` implies: the locale loaded to a
truthy document, the walk applied, and the new document was saved. -/
theorem set_ok_true (s : Store) (locale p : String) (v : JsonV) (s2 : Store)
    (h : set s locale p v false = (s2, .ok true)) :
    ∃ content content2,
      loadLocale s locale = some content ∧
      jsTruthy content = true ∧
      setPath false v (pathKeys p) content = .ok (content2, true) ∧
      s2 = saveLocale s locale content2 := by
  unfold set at h
  split at h
  · simp at h
  · rename_i content hl
    split at h
    · rename_i ht
      split at h
      · rename_i content2 hsp
        simp at h
        exact ⟨content, content2, hl, ht, hsp, h.symm⟩
      · simp at h
      · simp at h
    · simp at h

theorem get_after_set (s : Store) (locale p : String) (v : JsonV) (s2 : Store)
    (h : set s locale p v false = (s2, .ok true)) : get s2 locale p = v := by
  obtain ⟨content, content2, hl, ht, hsp, rfl⟩ := set_ok_true s locale p v s2 h
  obtain ⟨fs, rfl⟩ := setPath_ok_obj false v (pathKeys p) content content2 true hsp
  unfold get loadLocale saveLocale
  simp only [objGet_objSet_self, jsTruthy, if_true]
  rw [setPath_getPath false v (pathKeys p) content (.obj fs) hsp]

theorem set_skip_after (s : Store) (locale p : String) (v1 v2 : JsonV) (s2 : Store)
    (h : set s locale p v1 false = (s2, .ok true)) :
    set s2 locale p v2 true = (s2, .ok false) := by
  obtain ⟨content, content2, hl, ht, hsp, rfl⟩ := set_ok_true s locale p v1 s2 h
  obtain ⟨fs, rfl⟩ := setPath_ok_obj false v1 (pathKeys p) content content2 true hsp
  unfold set loadLocale saveLocale
  simp only [objGet_objSet_self, jsTruthy, if_true]
  rw [setPath_skip_after v1 v2 (pathKeys p) content (.obj fs) hsp]

/-!  ## Locale-universe preservation lemmas  -/

theorem set_locales (s : Store) (locale p : String) (v : JsonV) (skip : Bool) :
    ((set s locale p v skip).1).locales = s.locales := by
  unfold set
  split
  · rfl
  · split
    · split <;> rfl
    · rfl

theorem setMultiple_locales (s : Store) (translations : List (String × JsonV))
    (p : String) (skip : Bool) :
    ((setMultiple s translations p skip).1).locales = s.locales := by
  induction translations generalizing s with
  | nil => rfl
  | cons hd tl ih =>
      obtain ⟨locale, v⟩ := hd
      unfold setMultiple
      split
      · cases hset : set s locale p v skip with
        | mk s2 r =>
            have hls : s2.locales = s.locales := by
              have h0 := set_locales s locale p v skip
              rw [hset] at h0
              exact h0
            cases r with
            | error e => exact hls
            | ok b =>
                dsimp only
                cases hrec : setMultiple s2 tl p skip with
                | mk s3 r3 =>
                    have h1 : s3.locales = s2.locales := by
                      have h0 := ih s2
                      rw [hrec] at h0
                      exact h0
                    cases r3 with
                    | ok results => exact h1.trans hls
                    | error e => exact h1.trans hls
      · cases hrec : setMultiple s tl p skip with
        | mk s3 r3 =>
            have h1 : s3.locales = s.locales := by
              have h0 := ih s
              rw [hrec] at h0
              exact h0
            cases r3 with
            | ok results => exact h1
            | error e => exact h1

theorem setEach_locales (s : Store) (targets : List String) (p : String) (v : JsonV) :
    ((setEach s targets p v).1).locales = s.locales := by
  induction targets generalizing s with
  | nil => rfl
  | cons locale tl ih =>
      unfold setEach
      cases hset : set s locale p v false with
      | mk s2 r =>
          have hls : s2.locales = s.locales := by
            have h0 := set_locales s locale p v false
            rw [hset] at h0
            exact h0
          cases r with
          | error e => exact hls
          | ok b =>
              dsimp only
              cases hrec : setEach s2 tl p v with
              | mk s3 r3 =>
                  have h1 : s3.locales = s2.locales := by
                    have h0 := ih s2
                    rw [hrec] at h0
                    exact h0
                  cases r3 with
                  | ok results => exact h1.trans hls
                  | error e => exact h1.trans hls

theorem copy_locales (s : Store) (sourceLocale p : String)
    (targetLocales : Option (List String)) :
    ((copy s sourceLocale p targetLocales).1).locales = s.locales := by
  unfold copy
  split
  · rfl
  · generalize (match targetLocales with
      | some ts => ts
      | none => s.locales.filter (fun l => l ≠ sourceLocale)) = ts
    cases hse : setEach s ts p (get s sourceLocale p) with
    | mk s2 r =>
        have h1 : s2.locales = s.locales := by
          have h0 := setEach_locales s ts p (get s sourceLocale p)
          rw [hse] at h0
          exact h0
        cases r with
        | ok results => exact h1
        | error e => exact h1

theorem merge_locales (s : Store) (locale : String)
    (translations : List (String × JsonV)) (skip : Bool) :
    ((merge s locale translations skip).1).locales = s.locales := by
  induction translations generalizing s with
  | nil => rfl
  | cons hd tl ih =>
      obtain ⟨p, v⟩ := hd
      unfold merge
      cases hset : set s locale p v skip with
      | mk s2 r =>
          have hls : s2.locales = s.locales := by
            have h0 := set_locales s locale p v skip
            rw [hset] at h0
            exact h0
          cases r with
          | error e => exact hls
          | ok u => exact (ih s2).trans hls

theorem batchUpdate_locales (s : Store)
    (updates : List (String × List (String × JsonV))) (skip : Bool) :
    ((batchUpdate s updates skip).1).locales = s.locales := by
  induction updates generalizing s with
  | nil => rfl
  | cons hd tl ih =>
      obtain ⟨locale, translations⟩ := hd
      unfold batchUpdate
      split
      · cases hm : merge s locale translations skip with
        | mk s2 r =>
            have hls : s2.locales = s.locales := by
              have h0 := merge_locales s locale translations skip
              rw [hm] at h0
              exact h0
            cases r with
            | error e => exact hls
            | ok u => exact (ih s2).trans hls
      · exact ih s

/-!  ## Concrete documents and stores used by the claims  -/

/-- The single-quote character as a string, for building scanner inputs. -/
def apos : String := String.mk [Char.ofNat 39]

/-- The initial document of the repository's own string-conversion test
(test/I18nHelper.test.js:295–301). -/
def c1Doc : JsonV :=
  .obj [("simple", .str "Simple string"),
        ("nested", .obj [("level1", .str "Level 1 string")]),
        ("another", .str "Another string")]

/-- A store holding `c1Doc` under the test's locale name. -/
def c1Store : Store := { docs := [("test-locale", c1Doc)], locales := ["test-locale"] }

/-- The spec scenario's base (`en-US`) document. -/
def enDoc : JsonV :=
  .obj [("common", .obj [("loading", .str "Loading..."),
                         ("error", .str "An error occurred")]),
        ("navigation", .obj [("home", .str "Home"), ("about", .str "About")])]

/-- The spec scenario's second locale document. -/
def zhDoc : JsonV :=
  .obj [("common", .obj [("loading", .str "加载中...")]),
        ("navigation", .obj [("home", .str "首页")])]

/-- The spec scenario's store: base plus second locale. -/
def c2Store : Store :=
  { docs := [("en-US", enDoc), ("zh-hans", zhDoc)], locales := ["en-US", "zh-hans"] }

/-- What `checkTranslations` actually reports for the second locale of the
scenario. -/
def c2Stat : LocaleStat :=
  { total := 4, complete := 2, missing := 2, percentage := "50.0%",
    missingPaths := ["common.error", "navigation.about"] }

/-- A file containing the bare occurrences `t('page.title')` and
`{{ t('section.intro') }}` — no `$` anywhere. -/
def c3BareContent : String :=
  "t(" ++ apos ++ "page.title" ++ apos ++ ") and \x7b\x7b t(" ++ apos ++
    "section.intro" ++ apos ++ ") \x7d\x7d"

/-- The same file with the `$t` spelling the extraction patterns expect. -/
def c3DollarContent : String :=
  "$t(" ++ apos ++ "page.title" ++ apos ++ ") and \x7b\x7b $t(" ++ apos ++
    "section.intro" ++ apos ++ ") \x7d\x7d"

/-- One project file using `$t('x.y')`. -/
def c4VueContent : String := "<p>$t(" ++ apos ++ "x.y" ++ apos ++ ")</p>"

/-- A minimal project tree for the usage cross-check. -/
def c4Files : List (String × String) := [("pages/index.vue", c4VueContent)]

/-- A base-locale document defining the used key. -/
def c4BaseDoc : JsonV := .obj [("x", .obj [("y", .str "hi")])]

/-- A store whose locale `en` holds an empty-string leaf at `k`. -/
def c5Store : Store :=
  { docs := [("en", .obj [("k", .str "")])], locales := ["en"] }

/-- The document inside `c5Store`. -/
def c5Doc : JsonV := .obj [("k", .str "")]

/-- A store with one empty document, mutated by the C6 witness. -/
def w6Store : Store := { docs := [("en", .obj [])], locales := ["en"] }

/-- `w6Store` after `set en a.b "x"`. -/
def w6Store2 : Store := (set w6Store "en" "a.b" (JsonV.str "x") false).1

/-- A store with one empty document, mutated by the C7 witness. -/
def w7Store : Store := { docs := [("en", .obj [])], locales := ["en"] }

/-- `w7Store` after `set en a.b "x"`. -/
def w7Store2 : Store := (set w7Store "en" "a.b" (JsonV.str "x") false).1

/-- The scenario line of the markup scan. -/
def c9Line : String := "<h1>Welcome</h1><code>doNotFlag</code><span>Also flag me</span>"

/-!  ## The claims  -/

/-- C1.  The claim says `set(L, "a.b.c", V)` destructively replaces a scalar
at `"a.b"` by a container (with a warning) and succeeds.  The code's walk
(I18nHelper.js:164–170) has no such conversion: it descends into the scalar
and the next `'child' in current` throws `TypeError` in strict mode, so the
call raises instead of succeeding, and nothing is saved.  The repository's
own test (test/I18nHelper.test.js:284–349) asserts the conversion and the
`Converting "simple" from string to object` warning, so the code contradicts
its own test suite: the claim is right and the code is wrong.  This theorem
evaluates the model at the test's input: the call errors, the store is
untouched, and the scalar prefix is still the original string. -/
theorem C1_set_throws_on_scalar_path :
    (set c1Store "test-locale" "simple.child.grandchild" (JsonV.str "New value") false).2
        = Except.error () ∧
      (set c1Store "test-locale" "simple.child.grandchild" (JsonV.str "New value") false).1
        = c1Store ∧
      get c1Store "test-locale" "simple" = JsonV.str "Simple string" :=
  ⟨rfl, rfl, rfl⟩

/-- `checkTranslations` once the base locale is known to load as an object:
the report is the per-locale loop over the base document's leaf paths. -/
theorem checkTranslations_of_base (s : Store) (fields : List (String × JsonV))
    (h : loadLocale s "en-US" = some (JsonV.obj fields)) :
    checkTranslations s
      = some ((s.locales.filter (fun l => l ≠ "en-US")).filterMap (fun locale =>
          match loadLocale s locale with
          | none => none
          | some content =>
              if jsTruthy content then
                some (locale, localeStat s (getAllPaths fields "") locale)
              else none)) := by
  unfold checkTranslations
  rw [h]
  rfl

/-- The completeness report of the spec scenario, evaluated once and shared
by the two C2 theorems. -/
theorem c2_stats_eval : checkTranslations c2Store = some [("zh-hans", c2Stat)] := by
  have hgap : getAllPaths [("common", JsonV.obj [("loading", JsonV.str "Loading..."),
        ("error", JsonV.str "An error occurred")]),
      ("navigation", JsonV.obj [("home", JsonV.str "Home"), ("about", JsonV.str "About")])] ""
      = ["common.loading", "common.error", "navigation.home", "navigation.about"] := by
    simp [getAllPaths]
  rw [checkTranslations_of_base c2Store
    [("common", JsonV.obj [("loading", JsonV.str "Loading..."),
        ("error", JsonV.str "An error occurred")]),
     ("navigation", JsonV.obj [("home", JsonV.str "Home"), ("about", JsonV.str "About")])]
    rfl]
  simp only [hgap]
  rfl

/-- C2, counterexample.  On the spec's own scenario the completeness check
reports missing = 2 and percentage `"50.0%"` — not missing = 3 and
`"25.0%"` as the claim states (the claim even lists only two missing keys). -/
theorem C2_counterexample :
    checkTranslations c2Store = some [("zh-hans", c2Stat)] ∧
      c2Stat.missing ≠ 3 ∧ c2Stat.percentage ≠ "25.0%" :=
  ⟨c2_stats_eval, by decide, by decide⟩

/-- C2, amended.  For the scenario's base and second locale,
`checkTranslations` reports total = 4, missing = 2 (`common.error` and
`navigation.about`; neither `common.loading` nor `navigation.home`), and
percentage `"50.0%"`. -/
theorem C2_amended_completeness :
    checkTranslations c2Store = some [("zh-hans", c2Stat)] :=
  c2_stats_eval

/-- C3, counterexample.  The extraction patterns
(check-missing-translations.js:63–66) both require a literal `$` before `t`,
so a file containing only the bare occurrences `t('page.title')` and
`{{ t('section.intro') }}` yields no keys at all — not the claimed key set. -/
theorem C3_counterexample :
    extractTKeys c3BareContent = [] ∧
      extractTKeys c3BareContent ≠ ["page.title", "section.intro"] :=
  ⟨rfl, by decide⟩

/-- C3, amended.  For the `$t` spelling the patterns do target — a file
containing `$t('page.title')` and `{{ $t('section.intro') }}` — extraction
returns exactly the key set claimed, matching both the bare call and the
template-interpolated one. -/
theorem C3_amended_extraction :
    extractTKeys c3DollarContent = ["page.title", "section.intro"] := rfl

/-- C4.  The claim says the usage cross-check runs to completion without
throwing and returns the structured result.  It cannot: `reportResults`
(check-missing-translations.js:239) interpolates the undeclared identifier
`baseLocale`, raising `ReferenceError` in every call, and
`checkMissingTranslations` (line 221) calls it before returning.  On a
perfectly healthy input — one file using `$t('x.y')` and a base document
defining that key — the run throws.  The spec's error-handling section
("Nothing in the core is fatal") and the dead structured-result code after
the call show the claim is the intent and the code is a slip. -/
theorem C4_checkMissingTranslations_throws :
    checkMissingTranslations c4Files (some c4BaseDoc) = Except.error () ∧
      extractTKeys c4VueContent = ["x.y"] ∧
      hasTranslationKey c4BaseDoc "x.y" = true :=
  ⟨rfl, rfl, rfl⟩

/-- C5.  For a loadable (truthy) document `d` behind `locale`: an
empty-string leaf makes the completeness side (`has`, via `get !== null`)
report present while the cross-check (`hasTranslationKey`, which also
demands non-null and non-empty) reports absent; and the two rules disagree
at exactly the paths resolving to an empty-string leaf (a `null` leaf is
absent under both: `get` surfaces it as JS `null`). -/
theorem C5_presence_rules (s : Store) (locale p : String) (d : JsonV)
    (hload : loadLocale s locale = some d) (htruthy : jsTruthy d = true) :
    (getPath d (pathKeys p) = some (JsonV.str "") →
      has s locale p = true ∧ hasTranslationKey d p = false) ∧
    (has s locale p ≠ hasTranslationKey d p ↔
      getPath d (pathKeys p) = some (JsonV.str "")) := by
  have hget : get s locale p
      = (match getPath d (pathKeys p) with
         | some v => v
         | none => JsonV.null) := by
    unfold get
    rw [hload]
    dsimp only
    simp [htruthy]
  constructor
  · intro hgp
    unfold has hasTranslationKey
    rw [hget, hgp]
    simp [isNullV, isEmptyStrV]
  · unfold has hasTranslationKey
    rw [hget]
    cases hgp : getPath d (pathKeys p) with
    | none => simp [isNullV]
    | some v =>
        cases v with
        | null => simp [isNullV, isEmptyStrV]
        | bool b => simp [isNullV, isEmptyStrV]
        | num n => simp [isNullV, isEmptyStrV]
        | str s0 => by_cases hs : s0 = "" <;> simp [isNullV, isEmptyStrV, hs]
        | arr xs => simp [isNullV, isEmptyStrV]
        | obj fs => simp [isNullV, isEmptyStrV]

/-- C5, witness: the store whose document has `""` at `k`. -/
theorem C5_presence_rules_witness :
    has c5Store "en" "k" = true ∧ hasTranslationKey c5Doc "k" = false :=
  (C5_presence_rules c5Store "en" "k" c5Doc rfl rfl).1 rfl

/-- C6.  Whenever a `set` call succeeds (returns `true` — in particular for
every path whose present intermediate segments are containers, missing ones
being auto-vivified), a subsequent `get` of the same path on the resulting
store returns exactly the written value. -/
theorem C6_set_get_roundtrip (s : Store) (locale p : String) (v : JsonV) (s2 : Store)
    (h : set s locale p v false = (s2, Except.ok true)) :
    get s2 locale p = v :=
  get_after_set s locale p v s2 h

/-- C6, witness: setting `a.b` in an empty document and reading it back. -/
theorem C6_set_get_roundtrip_witness : get w6Store2 "en" "a.b" = JsonV.str "x" :=
  C6_set_get_roundtrip w6Store "en" "a.b" (JsonV.str "x") w6Store2 rfl

/-- C7.  After a successful `set(L, P, V1)`, a second
`set(L, P, V2, skipIfExists = true)` performs no mutation — it returns the
identical store together with the skip outcome (`false`, logged as
"skipping") — and `get(L, P)` still returns `V1`. -/
theorem C7_skipIfExists_frame (s s1 : Store) (locale p : String) (v1 v2 : JsonV)
    (h : set s locale p v1 false = (s1, Except.ok true)) :
    set s1 locale p v2 true = (s1, Except.ok false) ∧ get s1 locale p = v1 :=
  ⟨set_skip_after s locale p v1 v2 s1 h, get_after_set s locale p v1 s1 h⟩

/-- C7, witness: write `"x"`, then attempt `"y"` with `skipIfExists`. -/
theorem C7_skipIfExists_frame_witness :
    set w7Store2 "en" "a.b" (JsonV.str "y") true = (w7Store2, Except.ok false) ∧
      get w7Store2 "en" "a.b" = JsonV.str "x" :=
  C7_skipIfExists_frame w7Store w7Store2 "en" "a.b" (JsonV.str "x") (JsonV.str "y") rfl

/-- C8.  Leaf-path enumeration: on the spec's example it yields exactly
`["a.b", "a.c", "d"]` in document order; in general an array value is a leaf
(contributing its own path, not expanded) while an object value is expanded
depth-first before the remaining siblings. -/
theorem C8_enumerate_paths :
    getAllPaths [("a", JsonV.obj [("b", JsonV.num 1), ("c", JsonV.num 2)]),
        ("d", JsonV.num 3)] "" = ["a.b", "a.c", "d"] ∧
      (∀ (pfx key : String) (xs : List JsonV) (rest : List (String × JsonV)),
        getAllPaths ((key, JsonV.arr xs) :: rest) pfx
          = (if pfx = "" then key else pfx ++ "." ++ key) :: getAllPaths rest pfx) ∧
      (∀ (pfx key : String) (fields rest : List (String × JsonV)),
        getAllPaths ((key, JsonV.obj fields) :: rest) pfx
          = getAllPaths fields (if pfx = "" then key else pfx ++ "." ++ key) ++
              getAllPaths rest pfx) := by
  refine ⟨?_, ?_, ?_⟩
  · simp [getAllPaths]
  · intro pfx key xs rest
    simp [getAllPaths]
  · intro pfx key fields rest
    simp [getAllPaths]

/-- C9.  Scanning the markup line
`<h1>Welcome</h1><code>doNotFlag</code><span>Also flag me</span>` flags
exactly `"Welcome"` and `"Also flag me"`; `"doNotFlag"` is suppressed by the
same-line `<code>` exclusion. -/
theorem C9_code_pre_exclusion :
    (extractStringsFromLineVue c9Line 1 2 200 false).map Finding.text
        = ["Welcome", "Also flag me"] ∧
      "doNotFlag" ∉ (extractStringsFromLineVue c9Line 1 2 200 false).map Finding.text :=
  ⟨rfl, by decide⟩

/-- C10.  The locale universe is fixed at construction: `getLocales` returns
the constructor-scanned list (the source's `[...this.locales]` spread copies
it, so callers cannot alias the helper's own array), and none of the
mutating operations — `set`, `setMultiple`, `copy`, `merge`-based
`batchUpdate` — ever changes the `locales` component of the state
(`getAll` and `getMissing` are read-only by construction). -/
theorem C10_locales_universe_stable :
    (∀ s : Store, getLocales s = s.locales) ∧
      (∀ (s : Store) (locale p : String) (v : JsonV) (skip : Bool),
        ((set s locale p v skip).1).locales = s.locales) ∧
      (∀ (s : Store) (translations : List (String × JsonV)) (p : String) (skip : Bool),
        ((setMultiple s translations p skip).1).locales = s.locales) ∧
      (∀ (s : Store) (sourceLocale p : String) (targets : Option (List String)),
        ((copy s sourceLocale p targets).1).locales = s.locales) ∧
      (∀ (s : Store) (updates : List (String × List (String × JsonV))) (skip : Bool),
        ((batchUpdate s updates skip).1).locales = s.locales) :=
  ⟨fun _ => rfl, set_locales, setMultiple_locales, copy_locales, batchUpdate_locales⟩

end VibeI18n
